import Mathlib

/-!
Verification development for the swarm-go workflow engine
(event model, execution context, step retry policy, workflow dispatcher).

Each definition below is a shallow embedding of the corresponding Go
function, translated from the repository's source files.  Machine
integers (`int`, `int64`, `time.Duration` in nanoseconds) are modelled
as `Int`; the `float64` retry multiplier is modelled as an exact `ℚ`
(the concrete values used in theorems — small dyadic numbers and small
integer powers — are exactly representable in `float64`, so the rational
model agrees with the Go arithmetic at every input used).  Fallible Go
functions returning `(T, error)` are modelled with `Except String` /
`Option`.
-/

namespace Swarm

/-! ## Go errors and errors.Is (used by RetryPolicy.shouldRetry, workflow.go:127-137)

A Go `error` value is modelled as a tagged tree: `base i` is a leaf error
(e.g. from `errors.New`), identified by its tag, and `wrap i inner` is an
error produced by `fmt.Errorf("...: %w", inner)`.  `errorIs e target`
models `errors.Is(e, target)`: it walks the unwrap chain of `e` testing
identity against `target`. -/

inductive GoError where
  | base (id : Nat)
  | wrap (id : Nat) (inner : GoError)
deriving DecidableEq, Repr

def errorIs : GoError → GoError → Bool
  | .base i, target => GoError.base i == target
  | .wrap i inner, target => GoError.wrap i inner == target || errorIs inner target

/-! ## RetryPolicy (unnamed/part_000:344-360, defaults at 414-422) -/

/-- One second, in nanoseconds (`time.Second`). -/
def second : Int := 1000000000

structure RetryPolicy where
  maxRetries : Int
  initialInterval : Int
  maxInterval : Int
  multiplier : ℚ
  errors : List GoError
deriving DecidableEq, Repr

/-- `DefaultRetryPolicy` (unnamed/part_000:414-422):
{3 retries, 1s initial, 30s max, multiplier 2.0, no error allow-list}. -/
def defaultRetryPolicy : RetryPolicy :=
  { maxRetries := 3
    initialInterval := second
    maxInterval := 30 * second
    multiplier := 2
    errors := [] }

/-- Truncation of a rational toward zero, modelling Go's `float64` → `int64`
conversion `time.Duration(x)` (which discards the fractional part):
`q.num.tdiv q.den` is exactly `trunc(q)` since `q` is in lowest terms. -/
def ratTrunc (q : ℚ) : Int :=
  Int.tdiv q.num (Int.ofNat q.den)

/-- `RetryPolicy.calculateBackoff` (workflow.go:118-124):
`interval := p.InitialInterval * time.Duration(math.Pow(p.Multiplier, float64(attempt)))`,
capped at `p.MaxInterval`.  Note the float result of `math.Pow` is
truncated to an integer duration BEFORE being multiplied by the initial
interval. -/
def calculateBackoff (p : RetryPolicy) (attempt : Nat) : Int :=
  let interval := p.initialInterval * ratTrunc (p.multiplier ^ attempt)
  if interval > p.maxInterval then p.maxInterval else interval

/-- The backoff formula as the spec words it (spec.md §4.3):
`min(initialInterval × multiplier^attempt, maxInterval)`, computed without
truncating the power.  Stated over ℚ; written for comparison with
`calculateBackoff`, which is the translation of the source. -/
def specBackoff (p : RetryPolicy) (attempt : Nat) : ℚ :=
  min ((p.initialInterval : ℚ) * p.multiplier ^ attempt) (p.maxInterval : ℚ)

/-- `RetryPolicy.shouldRetry` (workflow.go:127-137): retry every error when
the allow-list is empty, otherwise only errors matching a listed error by
`errors.Is`. -/
def shouldRetry (p : RetryPolicy) (err : GoError) : Bool :=
  if p.errors.isEmpty then true
  else p.errors.any (fun target => errorIs err target)

/-! ## State values and the Context state map (context.go)

Values stored in the Context's `map[string]interface{}` are modelled by
`Val`; a nested mutable Go map value is modelled as a reference (`vMap`)
into an explicit heap, because Go maps are reference types: copying the
value copies the reference, not the map contents. -/

inductive Val where
  | vInt (n : Int)
  | vStr (s : String)
  | vBool (b : Bool)
  | vMap (addr : Nat)
deriving DecidableEq, Repr

/-- A Go `map[string]T`, as an association list with at most one entry per
key (maintained by `mapInsert`). -/
abbrev GoMap (α : Type) : Type := List (String × α)

def mapGet {α : Type} (m : GoMap α) (k : String) : Option α :=
  (List.find? (fun kv => kv.1 == k) m).map (fun kv => kv.2)

/-- Go map assignment `m[k] = v`: overwrite in place if the key exists,
otherwise add the entry. -/
def mapInsert {α : Type} (m : GoMap α) (k : String) (v : α) : GoMap α :=
  if List.any m (fun kv => kv.1 == k) then
    List.map (fun kv => if kv.1 == k then (k, v) else kv) m
  else m ++ [(k, v)]

/-- The heap of nested mutable maps referenced by `Val.vMap`. -/
abbrev Heap : Type := List (Nat × GoMap Val)

def heapGet (h : Heap) (addr : Nat) : Option (GoMap Val) :=
  (List.find? (fun am => am.1 == addr) h).map (fun am => am.2)

/-- Mutation of a nested map on the heap: `nested[k] = v` performed through
any reference holding `addr`. -/
def heapSetKey (h : Heap) (addr : Nat) (k : String) (v : Val) : Heap :=
  List.map (fun am => if am.1 == addr then (am.1, mapInsert am.2 k v) else am) h

/-- `Context.Clone` (context.go:199-209): allocates a fresh map and copies
every entry with `clone[k] = v`.  Each VALUE is copied as-is, so a `vMap`
reference in the clone aliases the same heap map as the original. -/
def contextClone (state : GoMap Val) : GoMap Val :=
  List.foldl (fun acc kv => mapInsert acc kv.1 kv.2) [] state

/-- Reads the nested value `state[k1].(map)[k2]` as the Context observes it:
look up the top-level key, follow the map reference into the heap, look up
the inner key. -/
def readNested (state : GoMap Val) (h : Heap) (k1 k2 : String) : Option Val :=
  match mapGet state k1 with
  | some (Val.vMap addr) =>
    match heapGet h addr with
    | some inner => mapGet inner k2
    | none => none
  | _ => none

/-! ## Tasks and events (events.go) -/

structure Task where
  id : String
  type : String
  payload : Val
  status : String
  error : Option GoError
  priority : Int
  timeout : Int
deriving DecidableEq, Repr

/-- `NewTask` (events.go:283-292). -/
def newTask (id : String) (eventType : String) (payload : Val) : Task :=
  { id := id
    type := eventType
    payload := payload
    status := "pending"
    error := none
    priority := 0
    timeout := 5 * 60 * second }

/-- `Task.Validate` (events.go:307-315). -/
def taskValidate (t : Task) : Option String :=
  if t.id = "" then some "task ID is required"
  else if t.type = "" then some "task type is required"
  else none

/-- Events routed through a workflow run (events.go).  Only the variants
the dispatcher claims touch are modelled: generic `base` events (also
standing in for user-defined events), error events, parallel-dispatch
events and parallel-result events.  The `ErrorEvent.Error` field is
non-optional here because every construction site modelled
(`NewErrorEvent`) stores a non-nil error. -/
inductive Event where
  | base (eventType : String) (data : GoMap Val)
  | errorEvent (err : GoError)
  | parallel (tasks : List Task) (sourceStep : String)
  | parallelResult (results : List (String × Event)) (errs : GoMap GoError)
      (successful : Int) (failed : Int) (duration : Int) (sourceStep : String)
deriving Repr

def isErrorEvent : Event → Bool
  | .errorEvent _ => true
  | _ => false

/-- Per-event `Validate` (events.go), dispatched on the event's variant.
The `BaseEvent.Validate` check that the type tag is non-empty passes
trivially for the fixed-tag variants (their tags are the non-empty
constants "ErrorEvent", "ParallelEvent", "ParallelResultEvent"); the
nil-map checks of `ParallelResultEvent.Validate` cannot fail in this model
because the maps are always present. -/
def validateEvent : Event → Option String
  | .base t _ => if t = "" then some "event type is required" else none
  | .errorEvent _ => none
  | .parallel tasks _ =>
    if tasks.isEmpty then some "at least one task is required"
    else List.findSome? (fun t =>
      (taskValidate t).map (fun m => "invalid task " ++ t.id ++ ": " ++ m)) tasks
  | .parallelResult _ _ _ _ dur _ =>
    if dur ≤ 0 then some "duration must be positive" else none

/-- Stable insertion of a task into a list kept in descending-priority
order; ties keep the existing element first. -/
def insertDesc (t : Task) : List Task → List Task
  | [] => [t]
  | h :: rest => if t.priority ≤ h.priority then h :: insertDesc t rest else t :: h :: rest

/-- Deterministic stand-in for `sort.Slice(tasks, priority-descending)`
(events.go:336-338).  Go's `sort.Slice` guarantees only the
descending-priority ordering of the result — the relative order of
equal-priority tasks is unspecified ("not guaranteed to be stable").
This stand-in is used only where tie order is irrelevant. -/
def sortByPriorityDesc (tasks : List Task) : List Task :=
  List.foldr insertDesc [] tasks

/-- `NewParallelEvent` (events.go:325-347): validates every task (returning
the first failure), then returns the event with the tasks sorted by
descending priority.  The empty task list passes this construction-time
validation. -/
def newParallelEvent (tasks : List Task) (sourceStep : String) : Except String Event :=
  match List.findSome? (fun t =>
      (taskValidate t).map (fun m => "invalid task " ++ t.id ++ ": " ++ m)) tasks with
  | some msg => .error msg
  | none => .ok (.parallel (sortByPriorityDesc tasks) sourceStep)

/-- `NewParallelResultEvent` (events.go:382-404): derives the
successful/failed counters by classifying each recorded result — failed
exactly when the result is itself an `*ErrorEvent`, successful
otherwise. -/
def newParallelResultEvent (results : GoMap Event) (errs : GoMap GoError)
    (duration : Int) (sourceStep : String) : Event :=
  let failed := List.length (List.filter (fun kv => isErrorEvent kv.2) results)
  let successful := List.length (List.filter (fun kv => !isErrorEvent kv.2) results)
  .parallelResult results errs (successful : Int) (failed : Int) duration sourceStep

/-- `Context.SendEvent` (context.go:53-75): reject a nil event, reject an
event failing its own `Validate`, fail when the context is already
cancelled, otherwise enqueue onto the inbound queue.  (The additional
best-effort non-blocking push to the broadcast channel is observational
only and not modelled.) -/
def sendEvent (ctxDone : Bool) (queue : List Event) (ev : Option Event) :
    Except String (List Event) :=
  match ev with
  | none => .error "event cannot be nil"
  | some e =>
    match validateEvent e with
    | some msg => .error ("invalid event: " ++ msg)
    | none => if ctxDone then .error "context canceled" else .ok (queue ++ [e])

/-! ## Steps (unnamed/part_000:362-412) -/

structure StepConfig where
  maxParallel : Int
  timeout : Int
  retryPolicy : Option RetryPolicy
deriving DecidableEq, Repr

/-- `BaseStep` (unnamed/part_000:374-379).  The handler closure is
represented by an opaque numeric tag: no claim inspects handler code
through the step record (handler behaviour is supplied separately to the
execution model as a function). -/
structure BaseStep where
  name : String
  handler : Nat
  config : StepConfig
  eventType : String
deriving DecidableEq, Repr

/-- `NewStep` (unnamed/part_000:401-412): when the given config carries no
retry policy, the DEFAULT policy is filled in here, at construction
time. -/
def newStep (name : String) (eventType : String) (handler : Nat)
    (config : StepConfig) : BaseStep :=
  let config :=
    match config.retryPolicy with
    | none => { config with retryPolicy := some defaultRetryPolicy }
    | some _ => config
  { name := name, handler := handler, config := config, eventType := eventType }

/-! ## Workflow registration (workflow.go:25-115) -/

structure WorkflowConfig where
  name : String
  maxTurns : Int
  verbose : Bool
  timeout : Int
  maxRetries : Int
deriving DecidableEq, Repr

structure Workflow where
  config : WorkflowConfig
  steps : List BaseStep
  stepMap : GoMap (List BaseStep)
deriving DecidableEq, Repr

/-- `DefaultConfig` (workflow.go:53-59). -/
def defaultConfig : WorkflowConfig :=
  { name := "", maxTurns := 30, verbose := false
    timeout := 5 * 60 * second, maxRetries := 3 }

/-- `NewWorkflow` (workflow.go:42-50). -/
def newWorkflow (name : String) : Workflow :=
  { config := { defaultConfig with name := name }, steps := [], stepMap := [] }

/-- `Workflow.validateStep` (workflow.go:88-115).  The receiver workflow is
not used by the source function, so it is omitted here. -/
def validateStep (step : BaseStep) : Option String :=
  if step.name = "" then some "step name is required"
  else if step.config.maxParallel < 0 then some "max parallel must be non-negative"
  else if step.config.timeout < 0 then some "timeout must be non-negative"
  else
    match step.config.retryPolicy with
    | none => none
    | some rp =>
      if rp.maxRetries < 0 then some "max retries must be non-negative"
      else if rp.initialInterval ≤ 0 then some "initial interval must be positive"
      else if rp.maxInterval < rp.initialInterval then
        some "max interval must be greater than or equal to initial interval"
      else if rp.multiplier ≤ 0 then some "multiplier must be positive"
      else none

/-- Appends a step under its event-type key in the registry
(workflow.go:82). -/
def stepMapAppend (m : GoMap (List BaseStep)) (k : String) (s : BaseStep) :
    GoMap (List BaseStep) :=
  match mapGet m k with
  | some existing => mapInsert m k (existing ++ [s])
  | none => mapInsert m k [s]

/-- The defaulted per-step timeout computed by `AddStep` when the step
declared none (workflow.go:75): `w.config.Timeout / (len(w.steps)+1)`,
Go integer division (truncation toward zero). -/
def derivedDefaultTimeout (w : Workflow) : Int :=
  Int.tdiv w.config.timeout (Int.ofNat w.steps.length + 1)

/-- `Workflow.AddStep` (workflow.go:68-85).  After validation, lines 73-76
of the source compute a defaulted timeout on `config := step.Config()` — a
BY-VALUE COPY of the step's config struct — and never write it back, so
the step is appended to the ordered list and the registry UNCHANGED (the
computed default, `derivedDefaultTimeout`, is discarded). -/
def addStep (w : Workflow) (step : BaseStep) : Except String Workflow :=
  match validateStep step with
  | some msg => .error ("invalid step: " ++ msg)
  | none =>
    .ok { w with
      steps := w.steps ++ [step]
      stepMap := stepMapAppend w.stepMap step.eventType step }

/-! ## Single-step execution with retries (workflow.go:153-201)

`executeStep` is modelled by its observable behaviour on one invocation:
which events it publishes into the Context, how many times it invokes the
step's handler, and which backoff sleeps it performs, as functions of the
step's retry policy, the semaphore-acquisition outcome and the handler's
per-attempt outcomes.  The handler is a function from the zero-based
attempt index to `Except GoError (Option Event)` (Go `(Event, error)`
with a possibly-nil event). -/

structure StepExec where
  published : List Event
  invocations : Nat
  sleeps : List Int
deriving Repr

/-- The retry loop of `executeStep` (workflow.go:170-188), unrolled on the
number of remaining iterations: the loop runs while `i < maxRetries`, so
the iteration count starts at `maxRetries` clamped to ℕ, and at an
iteration entered with `r + 1` remaining the Go condition
`i < maxRetries-1` holds exactly when `r ≠ 0`.  Returns
(result, lastErr, sleeps, invocations). -/
def runRetries (p : RetryPolicy) (handle : Nat → Except GoError (Option Event)) :
    Nat → Nat → Option Event × Option GoError × List Int × Nat
  | _, 0 => (none, none, [], 0)
  | i, r + 1 =>
    match handle i with
    | .ok result => (result, none, [], 1)
    | .error e =>
      if r ≠ 0 ∧ shouldRetry p e then
        let rest := runRetries p handle (i + 1) r
        (rest.1, rest.2.1, calculateBackoff p i :: rest.2.2.1, rest.2.2.2 + 1)
      else (none, some e, [], 1)

/-- A fixed tag for the error wrapped by
`fmt.Errorf("failed to acquire semaphore: %w", err)` (workflow.go:164). -/
def acquireFailedErr : GoError := .base 999

/-- `Workflow.executeStep` (workflow.go:153-201).  `sem` is `none` when no
rate limiting applies and `some ok` for a semaphore acquisition that
succeeded (`ok = true`) or was aborted by cancellation (`ok = false`).
On acquisition failure an error event is published and the handler never
runs.  Otherwise the retry loop runs; afterwards, a final error publishes
one error event wrapping the last cause, and a successful non-nil result
is published as-is. -/
def executeStepModel (p : RetryPolicy) (sem : Option Bool)
    (handle : Nat → Except GoError (Option Event)) : StepExec :=
  match sem with
  | some false => { published := [.errorEvent acquireFailedErr], invocations := 0, sleeps := [] }
  | _ =>
    let out := runRetries p handle 0 p.maxRetries.toNat
    match out.2.1 with
    | some e => { published := [.errorEvent e], invocations := out.2.2.2, sleeps := out.2.2.1 }
    | none =>
      match out.1 with
      | some ev => { published := [ev], invocations := out.2.2.2, sleeps := out.2.2.1 }
      | none => { published := [], invocations := out.2.2.2, sleeps := out.2.2.1 }

/-! ## Parallel fan-out result aggregation (workflow.go:280-398)

`executeParallelTasks` launches one goroutine per task; every recording of
a per-task outcome happens under one mutex, so the final contents of the
`results`/`errors` maps are those of a sequential interleaving (modelled
here in task order; the aggregate counts do not depend on the
interleaving, only on which key each task writes and whether its recorded
value is an error event).  Each task's outcome is abstracted by what its
goroutine records: a final error (semaphore failure, no matching steps,
payload marshalling failure, or handler failure after retries — all of
which record `NewErrorEvent` under the task id in `results` and the cause
in `errors`), a successful non-nil result event (recorded in `results`),
or a successful nil result (recording nothing). -/

inductive TaskOutcome where
  | ok (result : Option Event)
  | err (e : GoError)

/-- Records one task's outcome into the (results, errors) maps, as the
task's goroutine does under the mutex (workflow.go:304-387). -/
def recordTask (acc : List (String × Event) × GoMap GoError) (t : Task)
    (out : TaskOutcome) : List (String × Event) × GoMap GoError :=
  match out with
  | .ok none => acc
  | .ok (some ev) => (mapInsert acc.1 t.id ev, acc.2)
  | .err e => (mapInsert acc.1 t.id (.errorEvent e), mapInsert acc.2 t.id e)

/-- `Workflow.executeParallelTasks` (workflow.go:280-398): fold the
per-task recordings over the task list, then publish one
`NewParallelResultEvent` aggregating them. -/
def executeParallelTasksModel (tasks : List Task) (outcome : Task → TaskOutcome)
    (duration : Int) (sourceStep : String) : Event :=
  let maps := List.foldl (fun acc t => recordTask acc t (outcome t)) ([], []) tasks
  newParallelResultEvent maps.1 maps.2 duration sourceStep

/-- The `successful + failed` sum carried by a parallel-result event
(0 for any other event variant). -/
def sumCounts : Event → Int
  | .parallelResult _ _ s f _ _ => s + f
  | _ => 0

/-! ## Concrete instances used by witnesses and counterexamples -/

def failErr : GoError := .base 0

def alwaysFailHandler : Nat → Except GoError (Option Event) :=
  fun _ => .error failErr

/-- A retry policy with a fractional multiplier 1/2; accepted by
`validateStep` (only `multiplier ≤ 0` is rejected). -/
def halfMultiplierPolicy : RetryPolicy :=
  { maxRetries := 3, initialInterval := 1, maxInterval := 30
    multiplier := mkRat 1 2, errors := [] }

def halfMultiplierStep : BaseStep :=
  { name := "half", handler := 0
    config := { maxParallel := 0, timeout := 1, retryPolicy := some halfMultiplierPolicy }
    eventType := "E" }

/-- A retry policy with multiplier 3/2 (exactly representable in
`float64`, and `math.Pow(1.5, 1) = 1.5` exactly by Go's documented
special case). -/
def fractionalPolicy : RetryPolicy :=
  { maxRetries := 3, initialInterval := 2, maxInterval := 100
    multiplier := mkRat 3 2, errors := [] }

/-- A retry policy whose allow-list names only the error `base 1`. -/
def selectivePolicy : RetryPolicy :=
  { maxRetries := 3, initialInterval := 1, maxInterval := 30
    multiplier := 2, errors := [GoError.base 1] }

def zeroRetryPolicy : RetryPolicy :=
  { maxRetries := 0, initialInterval := second, maxInterval := second
    multiplier := 1, errors := [] }

def zeroRetryStep : BaseStep :=
  { name := "zero", handler := 0
    config := { maxParallel := 0, timeout := second, retryPolicy := some zeroRetryPolicy }
    eventType := "E" }

/-- A step config with no declared timeout and no retry policy. -/
def emptyConfig : StepConfig :=
  { maxParallel := 0, timeout := 0, retryPolicy := none }

def sampleStep : BaseStep := newStep "s" "E" 0 emptyConfig

/-- A workflow whose configured timeout is 300 s and which has no steps
yet. -/
def wf300 : Workflow :=
  { config := { name := "wf", maxTurns := 30, verbose := false
                timeout := 300 * second, maxRetries := 3 }
    steps := [], stepMap := [] }

/-- Two tasks sharing the id "a". -/
def taskA1 : Task := newTask "a" "work" (.vInt 1)

def taskA2 : Task := { newTask "a" "work" (.vInt 2) with priority := 1 }

def taskB : Task := newTask "b" "work" (.vInt 2)

/-- The workflow `wf300` after a successful `addStep` of `sampleStep`. -/
def wf300After : Workflow :=
  { config := wf300.config, steps := [sampleStep], stepMap := [("E", [sampleStep])] }

/-- A context state holding one nested map value, and the heap giving that
nested map's contents. -/
def nestedState : GoMap Val := [("m", .vMap 0)]

def nestedHeap : Heap := [(0, [("x", .vInt 1)])]

/-! ## Helper lemmas -/

theorem ratTrunc_eq_floor (q : ℚ) (hq : 0 ≤ q) : ratTrunc q = Int.floor q := by
  have hnum : 0 ≤ q.num := Rat.num_nonneg.mpr hq
  have hden : (0 : Int) ≤ Int.ofNat q.den := Int.ofNat_nonneg _
  rw [ratTrunc, Int.tdiv_eq_ediv hnum hden, Rat.floor_def]
  rfl

theorem ratTrunc_mono (a b : ℚ) (ha : 0 ≤ a) (hab : a ≤ b) :
    ratTrunc a ≤ ratTrunc b := by
  rw [ratTrunc_eq_floor a ha, ratTrunc_eq_floor b (le_trans ha hab)]
  exact Int.floor_mono hab

theorem calculateBackoff_eq_min (p : RetryPolicy) (attempt : Nat) :
    calculateBackoff p attempt =
      min (p.initialInterval * ratTrunc (p.multiplier ^ attempt)) p.maxInterval := by
  rw [calculateBackoff, min_def]
  split <;> split <;> omega

theorem calculateBackoff_le_maxInterval (p : RetryPolicy) (attempt : Nat) :
    calculateBackoff p attempt ≤ p.maxInterval := by
  rw [calculateBackoff]
  split <;> omega

theorem calculateBackoff_mono (p : RetryPolicy) (hI : 0 ≤ p.initialInterval)
    (hm : 1 ≤ p.multiplier) (a b : Nat) (hab : a ≤ b) :
    calculateBackoff p a ≤ calculateBackoff p b := by
  have hpow : p.multiplier ^ a ≤ p.multiplier ^ b := pow_le_pow_right₀ hm hab
  have hpos : (0 : ℚ) ≤ p.multiplier ^ a :=
    pow_nonneg (le_trans zero_le_one hm) a
  have htr : ratTrunc (p.multiplier ^ a) ≤ ratTrunc (p.multiplier ^ b) :=
    ratTrunc_mono _ _ hpos hpow
  have hmul : p.initialInterval * ratTrunc (p.multiplier ^ a) ≤
      p.initialInterval * ratTrunc (p.multiplier ^ b) :=
    mul_le_mul_of_nonneg_left htr hI
  rw [calculateBackoff_eq_min, calculateBackoff_eq_min]
  exact min_le_min hmul le_rfl

/-- The retry loop on a handler that fails at every attempt with a
retriable error: it runs all remaining iterations, sleeping the computed
backoff between consecutive attempts, and ends with the last attempt's
error. -/
theorem runRetries_allFail (p : RetryPolicy) (errOf : Nat → GoError)
    (hretry : ∀ i, shouldRetry p (errOf i) = true) :
    ∀ r i, runRetries p (fun j => .error (errOf j)) i (r + 1) =
      (none, some (errOf (i + r)),
        (List.range' i r).map (fun j => calculateBackoff p j), r + 1) := by
  intro r
  induction r with
  | zero =>
    intro i
    simp [runRetries]
  | succ r ih =>
    intro i
    rw [runRetries]
    simp only [hretry, and_true]
    rw [if_pos (Nat.succ_ne_zero r), ih (i + 1)]
    simp [List.range'_succ]
    congr 1
    omega

/-- Consecutive-pair monotonicity of a mapped index range. -/
theorem chain'_map_range' (f : Nat → Int) (hf : ∀ i, f i ≤ f (i + 1)) :
    ∀ n s, List.Chain' (· ≤ ·) ((List.range' s n).map f) := by
  intro n
  induction n with
  | zero => intro s; simp
  | succ n ih =>
    intro s
    rw [List.range'_succ, List.map_cons]
    cases n with
    | zero => simp
    | succ m =>
      rw [List.range'_succ, List.map_cons, List.chain'_cons]
      constructor
      · exact hf s
      · have := ih (s + 1)
        rwa [List.range'_succ, List.map_cons] at this

theorem length_filter_add_length_filter_not {α : Type} (l : List α) (p : α → Bool) :
    (List.filter p l).length + (List.filter (fun a => !p a) l).length = l.length := by
  induction l with
  | nil => simp
  | cons a t ih =>
    by_cases h : p a = true <;> simp [List.filter, h] <;> omega

theorem mapInsert_fresh {α : Type} (m : GoMap α) (k : String) (v : α)
    (h : ∀ kv ∈ m, kv.1 ≠ k) : mapInsert m k v = m ++ [(k, v)] := by
  rw [mapInsert, if_neg]
  intro hany
  obtain ⟨kv, hkv, hbeq⟩ := List.any_eq_true.mp hany
  exact h kv hkv (by simpa using hbeq)

/-- The parallel-result constructor's two counters always sum to the size
of the results map. -/
theorem sumCounts_newParallelResultEvent (rs : GoMap Event) (es : GoMap GoError)
    (d : Int) (s : String) :
    sumCounts (newParallelResultEvent rs es d s) = (rs.length : Int) := by
  have h := length_filter_add_length_filter_not rs (fun kv => isErrorEvent kv.2)
  simp only [newParallelResultEvent, sumCounts]
  omega

/-- Folding the per-task recordings over tasks with pairwise-distinct ids,
all recording something, grows the results map by exactly one entry per
task. -/
theorem fold_record_length (outcome : Task → TaskOutcome) :
    ∀ (tasks : List Task) (acc : List (String × Event) × GoMap GoError),
      (tasks.map Task.id).Nodup →
      (∀ t ∈ tasks, outcome t ≠ TaskOutcome.ok none) →
      (∀ t ∈ tasks, ∀ kv ∈ acc.1, kv.1 ≠ t.id) →
      (List.foldl (fun a t => recordTask a t (outcome t)) acc tasks).1.length
        = acc.1.length + tasks.length := by
  intro tasks
  induction tasks with
  | nil => intro acc _ _ _; simp
  | cons t rest ih =>
    intro acc hnodup hrec hfresh
    rw [List.map_cons, List.nodup_cons] at hnodup
    obtain ⟨hhead, htail⟩ := hnodup
    have hfr : ∀ kv ∈ acc.1, kv.1 ≠ t.id := hfresh t (List.mem_cons_self t rest)
    have hrec' : ∀ u ∈ rest, outcome u ≠ TaskOutcome.ok none :=
      fun u hu => hrec u (List.mem_cons_of_mem t hu)
    have hfresh' : ∀ (ev : Event), ∀ u ∈ rest,
        ∀ kv ∈ acc.1 ++ [(t.id, ev)], kv.1 ≠ u.id := by
      intro ev u hu kv hkv
      rcases List.mem_append.mp hkv with hin | hsing
      · exact hfresh u (List.mem_cons_of_mem t hu) kv hin
      · rcases List.mem_singleton.mp hsing with rfl
        intro hid
        apply hhead
        have hid' : t.id = u.id := hid
        rw [hid']
        exact List.mem_map_of_mem Task.id hu
    rw [List.foldl_cons]
    cases hout : outcome t with
    | ok r =>
      cases r with
      | none => exact absurd hout (hrec t (List.mem_cons_self t rest))
      | some ev =>
        rw [recordTask, mapInsert_fresh acc.1 t.id ev hfr]
        rw [ih (acc.1 ++ [(t.id, ev)], acc.2) htail hrec' (hfresh' ev)]
        simp
        omega
    | err e =>
      rw [recordTask, mapInsert_fresh acc.1 t.id (Event.errorEvent e) hfr]
      rw [ih (acc.1 ++ [(t.id, Event.errorEvent e)], mapInsert acc.2 t.id e) htail
        hrec' (hfresh' (Event.errorEvent e))]
      simp
      omega

/-! ## Claim theorems -/

/-- C5 counterexample: for the registered-valid policy
{initialInterval 2, multiplier 3/2, maxInterval 100}, the source computes
`calculateBackoff(1) = 2 * time.Duration(1.5) = 2`, while the claimed
formula `min(initialInterval × multiplier^attempt, maxInterval)` gives 3:
the float power is truncated to an integer duration BEFORE the
multiplication.  (`math.Pow(1.5, 1) = 1.5` exactly, and `float64` → `int64`
conversion truncates, so the rational model agrees with Go here.) -/
theorem calculateBackoff_truncates_power :
    validateStep halfMultiplierStep = none ∧
    calculateBackoff fractionalPolicy 1 = 2 ∧
    specBackoff fractionalPolicy 1 = 3 ∧
    (calculateBackoff fractionalPolicy 1 : ℚ) ≠ specBackoff fractionalPolicy 1 := by
  have h1 : calculateBackoff fractionalPolicy 1 = 2 := by decide
  have h2 : specBackoff fractionalPolicy 1 = 3 := by
    norm_num [specBackoff, fractionalPolicy]
  refine ⟨by decide, h1, h2, ?_⟩
  rw [h1, h2]
  norm_num

/-- C5 amended: `calculateBackoff(attempt)` equals
`min(initialInterval * trunc(multiplier^attempt), maxInterval)` — the
power is truncated toward zero to an integer duration multiplier before
scaling; when the multiplier is an integer the truncation is the identity
and the spec's formula `min(initialInterval × multiplier^attempt,
maxInterval)` holds exactly. -/
theorem calculateBackoff_min_formula (p : RetryPolicy) (attempt : Nat) :
    calculateBackoff p attempt =
      min (p.initialInterval * ratTrunc (p.multiplier ^ attempt)) p.maxInterval ∧
    (∀ k : Nat, p.multiplier = (k : ℚ) →
      (calculateBackoff p attempt : ℚ) = specBackoff p attempt) := by
  refine ⟨calculateBackoff_eq_min p attempt, ?_⟩
  intro k hk
  have htr : ratTrunc (p.multiplier ^ attempt) = ((k ^ attempt : ℕ) : ℤ) := by
    rw [hk]
    rw [show ((k : ℚ) ^ attempt) = ((k ^ attempt : ℕ) : ℚ) by push_cast; ring]
    rw [ratTrunc]
    simp
  rw [calculateBackoff_eq_min, htr, specBackoff, hk]
  push_cast
  rfl

/-- C5 witness for the integer-multiplier clause, at the default policy
(multiplier 2) and attempt 2. -/
theorem calculateBackoff_min_formula_witness :
    defaultRetryPolicy.multiplier = ((2 : ℕ) : ℚ) ∧
    (calculateBackoff defaultRetryPolicy 2 : ℚ) = specBackoff defaultRetryPolicy 2 :=
  ⟨by norm_num [defaultRetryPolicy],
   (calculateBackoff_min_formula defaultRetryPolicy 2).2 2
     (by norm_num [defaultRetryPolicy])⟩

/-- C9: a step whose retry policy has `maxRetries = 0` makes `executeStep`
return without invoking the handler and without publishing any event
(the retry loop body never runs, `lastErr` and `result` stay nil), while
such a policy is accepted by `validateStep` (shown on the concrete step
`zeroRetryStep`). -/
theorem executeStep_zero_maxRetries_noop (p : RetryPolicy) (sem : Option Bool)
    (handle : Nat → Except GoError (Option Event))
    (hp : p.maxRetries = 0) (hsem : sem ≠ some false) :
    (executeStepModel p sem handle).published = [] ∧
    (executeStepModel p sem handle).invocations = 0 ∧
    (executeStepModel p sem handle).sleeps = [] ∧
    validateStep zeroRetryStep = none ∧
    zeroRetryStep.config.retryPolicy = some zeroRetryPolicy ∧
    zeroRetryPolicy.maxRetries = 0 := by
  have hrun : runRetries p handle 0 p.maxRetries.toNat = (none, none, [], 0) := by
    rw [hp]
    rfl
  cases sem with
  | none =>
    refine ⟨?_, ?_, ?_, by decide, by decide, by decide⟩ <;>
      simp [executeStepModel, hrun]
  | some b =>
    cases b with
    | false => exact absurd rfl hsem
    | true =>
      refine ⟨?_, ?_, ?_, by decide, by decide, by decide⟩ <;>
        simp [executeStepModel, hrun]

/-- C9 witness at the concrete zero-retry policy, no rate limiter, and a
handler that would fail if it were ever invoked. -/
theorem executeStep_zero_maxRetries_noop_witness :
    zeroRetryPolicy.maxRetries = 0 ∧
    (none : Option Bool) ≠ some false ∧
    (executeStepModel zeroRetryPolicy none alwaysFailHandler).published = [] ∧
    (executeStepModel zeroRetryPolicy none alwaysFailHandler).invocations = 0 :=
  ⟨rfl, by simp,
   (executeStep_zero_maxRetries_noop zeroRetryPolicy none alwaysFailHandler rfl
      (by simp)).1,
   (executeStep_zero_maxRetries_noop zeroRetryPolicy none alwaysFailHandler rfl
      (by simp)).2.1⟩

/-- C4: with an empty allow-list `shouldRetry` accepts every error; with a
non-empty allow-list it accepts exactly the errors matching a listed error
by `errors.Is`; and a non-retriable failure is never retried — the handler
runs exactly once (the initial attempt, zero retries), with no backoff
sleeps, before the error event is published. -/
theorem shouldRetry_allowlist_spec (p : RetryPolicy) (e : GoError)
    (hmr : 1 ≤ p.maxRetries) :
    (p.errors = [] → shouldRetry p e = true) ∧
    (p.errors ≠ [] →
      (shouldRetry p e = true ↔ ∃ t ∈ p.errors, errorIs e t = true)) ∧
    (shouldRetry p e = false →
      (executeStepModel p none (fun _ => .error e)).published = [.errorEvent e] ∧
      (executeStepModel p none (fun _ => .error e)).invocations = 1 ∧
      (executeStepModel p none (fun _ => .error e)).sleeps = []) := by
  refine ⟨?_, ?_, ?_⟩
  · intro h
    simp [shouldRetry, h]
  · intro h
    rw [shouldRetry, if_neg (by simpa [List.isEmpty_iff] using h)]
    exact List.any_eq_true
  · intro h
    obtain ⟨n, hn⟩ : ∃ n, p.maxRetries.toNat = n + 1 :=
      ⟨p.maxRetries.toNat - 1, by omega⟩
    have hrun : runRetries p (fun _ => .error e) 0 p.maxRetries.toNat =
        (none, some e, [], 1) := by
      rw [hn, runRetries]
      simp [h]
    refine ⟨?_, ?_, ?_⟩ <;> simp [executeStepModel, hrun]

/-- C4 witness: the selective policy retries only `base 1`; the unlisted
error `base 2` is not retriable and yields a single invocation. -/
theorem shouldRetry_allowlist_spec_witness :
    1 ≤ selectivePolicy.maxRetries ∧
    selectivePolicy.errors ≠ [] ∧
    shouldRetry selectivePolicy (.base 2) = false ∧
    shouldRetry selectivePolicy (.base 1) = true ∧
    (executeStepModel selectivePolicy none (fun _ => .error (.base 2))).invocations = 1 :=
  ⟨by decide, by decide, by decide, by decide,
   ((shouldRetry_allowlist_spec selectivePolicy (.base 2) (by decide)).2.2
      (by decide)).2.1⟩

/-- C2 counterexample: the policy {maxRetries 3, initialInterval 1,
maxInterval 30, multiplier 1/2} passes registration validation, a
permanently failing (retriable) handler produces the backoff delays
[1, 0] — `1 * trunc(0.5^1) = 0` — so the inter-attempt delay DECREASES:
the claimed monotonicity fails for multipliers below 1. -/
theorem retryDelays_not_monotone_for_fractional_multiplier :
    validateStep halfMultiplierStep = none ∧
    shouldRetry halfMultiplierPolicy failErr = true ∧
    (executeStepModel halfMultiplierPolicy none alwaysFailHandler).sleeps = [1, 0] ∧
    ¬ List.Chain' (· ≤ ·)
      (executeStepModel halfMultiplierPolicy none alwaysFailHandler).sleeps := by
  have hs : (executeStepModel halfMultiplierPolicy none alwaysFailHandler).sleeps
      = [1, 0] := by decide
  refine ⟨by decide, by decide, hs, ?_⟩
  rw [hs]
  intro hc
  exact absurd (List.chain'_cons.mp hc).1 (by norm_num)

/-- C2 amended: a permanently failing handler whose errors are all
retriable is invoked exactly R = maxRetries times, then exactly one error
event wrapping the final cause is published; the backoff delays are
`calculateBackoff(0), …, calculateBackoff(R-2)`, each at most
`maxInterval`, and — provided the multiplier is at least 1 (delays behind
a fractional multiplier can decrease, by the counterexample) — they are
monotonically non-decreasing. -/
theorem executeStep_retries_exhaust_and_backoff (p : RetryPolicy)
    (errOf : Nat → GoError) (R : Nat)
    (hR : p.maxRetries = (R : Int)) (hR1 : 1 ≤ R)
    (hretry : ∀ i, shouldRetry p (errOf i) = true) :
    (executeStepModel p none (fun i => .error (errOf i))).invocations = R ∧
    (executeStepModel p none (fun i => .error (errOf i))).published
      = [.errorEvent (errOf (R - 1))] ∧
    (executeStepModel p none (fun i => .error (errOf i))).sleeps
      = (List.range (R - 1)).map (fun i => calculateBackoff p i) ∧
    (∀ d ∈ (executeStepModel p none (fun i => .error (errOf i))).sleeps,
      d ≤ p.maxInterval) ∧
    (0 ≤ p.initialInterval → 1 ≤ p.multiplier →
      List.Chain' (· ≤ ·)
        (executeStepModel p none (fun i => .error (errOf i))).sleeps) := by
  obtain ⟨r, rfl⟩ : ∃ r, R = r + 1 := ⟨R - 1, by omega⟩
  have htp : p.maxRetries.toNat = r + 1 := by
    rw [hR]
    simp
  have hrun : runRetries p (fun j => .error (errOf j)) 0 p.maxRetries.toNat =
      (none, some (errOf r),
        (List.range' 0 r).map (fun j => calculateBackoff p j), r + 1) := by
    rw [htp]
    simpa using runRetries_allFail p errOf hretry r 0
  have hex : executeStepModel p none (fun j => .error (errOf j)) =
      { published := [.errorEvent (errOf r)], invocations := r + 1
        sleeps := (List.range' 0 r).map (fun j => calculateBackoff p j) } := by
    simp [executeStepModel, hrun]
  rw [hex]
  refine ⟨rfl, by simp, ?_, ?_, ?_⟩
  · simp [List.range_eq_range']
  · intro d hd
    obtain ⟨j, _, rfl⟩ := List.mem_map.mp hd
    exact calculateBackoff_le_maxInterval p j
  · intro hI hm
    exact chain'_map_range' (fun j => calculateBackoff p j)
      (fun j => calculateBackoff_mono p hI hm j (j + 1) (Nat.le_succ j)) r 0

/-- C2 witness at the default policy (multiplier 2): three invocations,
one error event, delays [1s, 2s], monotone and capped by 30s. -/
theorem executeStep_retries_exhaust_and_backoff_witness :
    defaultRetryPolicy.maxRetries = ((3 : ℕ) : Int) ∧
    1 ≤ 3 ∧
    shouldRetry defaultRetryPolicy failErr = true ∧
    (executeStepModel defaultRetryPolicy none (fun _ => .error failErr)).invocations = 3 ∧
    (executeStepModel defaultRetryPolicy none (fun _ => .error failErr)).published
      = [.errorEvent failErr] ∧
    (0 ≤ defaultRetryPolicy.initialInterval → 1 ≤ defaultRetryPolicy.multiplier →
      List.Chain' (· ≤ ·)
        (executeStepModel defaultRetryPolicy none (fun _ => .error failErr)).sleeps) :=
  by
  have hret : ∀ _ : Nat, shouldRetry defaultRetryPolicy failErr = true :=
    fun _ => by decide
  have h := executeStep_retries_exhaust_and_backoff defaultRetryPolicy
    (fun _ => failErr) 3 (by decide) (by decide) hret
  exact ⟨by decide, by decide, by decide, h.1, h.2.1, h.2.2.2.2⟩

/-- C1 (code defect): for the workflow `wf300` (timeout 300 s, no steps)
and a valid step with no declared timeout, registration succeeds and the
derived default share `workflowTimeout / (stepCount + 1)` is 300 s — but
`AddStep` computes it on a by-value copy of the step's config
(workflow.go:73-76) and never stores it, so the registered step still
carries timeout 0 and later `executeStep` calls derive their per-step
deadline from 0, not from the computed share. -/
theorem addStep_discards_derived_timeout :
    sampleStep.config.timeout = 0 ∧
    derivedDefaultTimeout wf300 = 300 * second ∧
    addStep wf300 sampleStep = .ok wf300After ∧
    wf300After.steps.map (fun s => s.config.timeout) = [0] ∧
    (0 : Int) ≠ 300 * second :=
  ⟨by decide, by decide, rfl, by decide, by decide⟩

/-- C3 counterexample: the tasks `taskA1` and `taskA2` share the id "a";
both resolve to recorded contained errors, so K = 2, but the per-id
results map holds a single entry and the published parallel-result event
reports successful + failed = 1 ≠ 2. -/
theorem parallelResult_counts_collapse_on_duplicate_ids :
    taskA1.id = "a" ∧ taskA2.id = "a" ∧
    ([taskA1, taskA2].length : Int) = 2 ∧
    sumCounts (executeParallelTasksModel [taskA1, taskA2]
      (fun _ => .err (.base 7)) 5 "src") = 1 ∧
    (1 : Int) ≠ 2 := by decide

/-- C3 amended: for a parallel dispatch over K tasks with
pairwise-distinct ids, in which every task resolves to a recorded result
or a contained error, the published parallel-result event satisfies
successful + failed = K (failed counting exactly the error-event
results). -/
theorem parallelResult_counts_sum_eq_tasks (tasks : List Task)
    (outcome : Task → TaskOutcome) (duration : Int) (src : String)
    (hids : (tasks.map Task.id).Nodup)
    (hrec : ∀ t ∈ tasks, outcome t ≠ TaskOutcome.ok none) :
    sumCounts (executeParallelTasksModel tasks outcome duration src)
      = (tasks.length : Int) := by
  rw [executeParallelTasksModel, sumCounts_newParallelResultEvent]
  rw [fold_record_length outcome tasks ([], []) hids hrec (by intro t ht kv hkv; cases hkv)]
  simp

/-- C3 witness: two tasks with distinct ids "a" and "b", both failing with
a contained error, aggregate to successful + failed = 2. -/
theorem parallelResult_counts_sum_eq_tasks_witness :
    ([taskA1, taskB].map Task.id).Nodup ∧
    sumCounts (executeParallelTasksModel [taskA1, taskB]
      (fun _ => .err (.base 7)) 5 "src") = (([taskA1, taskB].length : Nat) : Int) :=
  ⟨by decide,
   parallelResult_counts_sum_eq_tasks [taskA1, taskB] (fun _ => .err (.base 7)) 5 "src"
     (by decide) (fun t _ => fun h => TaskOutcome.noConfusion h)⟩

/-- C7 counterexample: a step built by `NewStep` from a config with no
retry policy already carries the default policy straight out of
construction, before any `AddStep` call — refuting "assigned at
registration time, not at construction time". -/
theorem newStep_assigns_default_policy_at_construction :
    emptyConfig.retryPolicy = none ∧
    (newStep "s" "E" 0 emptyConfig).config.retryPolicy = some defaultRetryPolicy ∧
    some defaultRetryPolicy ≠ (none : Option RetryPolicy) := by decide

/-- C7 amended: a step with an unset retry policy is assigned the default
policy {3, 1s, 30s, 2.0, []} at construction time by `NewStep`;
registration (`AddStep`) performs no policy assignment — on success it
appends the step to the workflow unchanged. -/
theorem defaultRetryPolicy_assignment_time (name eventType : String) (h : Nat)
    (cfg : StepConfig) (hnone : cfg.retryPolicy = none)
    (w w' : Workflow) (step : BaseStep) (hadd : addStep w step = .ok w') :
    (newStep name eventType h cfg).config.retryPolicy = some defaultRetryPolicy ∧
    w'.steps = w.steps ++ [step] := by
  constructor
  · simp [newStep, hnone]
  · unfold addStep at hadd
    split at hadd
    · exact Except.noConfusion hadd
    · injection hadd with h2
      rw [← h2]

/-- C7 witness: the concrete construction `sampleStep` and the concrete
successful registration `addStep wf300 sampleStep`. -/
theorem defaultRetryPolicy_assignment_time_witness :
    emptyConfig.retryPolicy = none ∧
    addStep wf300 sampleStep = .ok wf300After ∧
    (newStep "s" "E" 0 emptyConfig).config.retryPolicy = some defaultRetryPolicy ∧
    wf300After.steps = wf300.steps ++ [sampleStep] :=
  ⟨rfl, rfl,
   (defaultRetryPolicy_assignment_time "s" "E" 0 emptyConfig rfl
      wf300 wf300After sampleStep rfl).1,
   (defaultRetryPolicy_assignment_time "s" "E" 0 emptyConfig rfl
      wf300 wf300After sampleStep rfl).2⟩

/-- C8 (code defect): `Clone` copies each entry's VALUE as-is, so a nested
map value is shared by reference: from state {"m" ↦ map at heap address 0
holding {"x" ↦ 1}}, the clone's "m" entry aliases heap address 0; writing
x ↦ 2 through that aliased nested map makes the Context itself observe
state["m"]["x"] = 2 — the copy is shallow, not deep-independent as the
claim (and Clone's own doc comment, "deep copy … can be safely modified")
states. -/
theorem clone_shares_nested_maps :
    contextClone nestedState = nestedState ∧
    mapGet (contextClone nestedState) "m" = some (.vMap 0) ∧
    readNested nestedState nestedHeap "m" "x" = some (.vInt 1) ∧
    readNested nestedState (heapSetKey nestedHeap 0 "x" (.vInt 2)) "m" "x"
      = some (.vInt 2) ∧
    some (Val.vInt 2) ≠ some (Val.vInt 1) := by decide

/-- C10: `NewParallelEvent` applied to an empty task list returns a
parallel event and no error (construction validates only the individual
tasks), yet the returned event's own `Validate` fails with "at least one
task is required", so `SendEvent` rejects it with a validation error
instead of enqueuing it. -/
theorem emptyParallelEvent_constructed_then_rejected :
    newParallelEvent [] "src" = .ok (.parallel [] "src") ∧
    validateEvent (.parallel [] "src") = some "at least one task is required" ∧
    sendEvent false [] (some (.parallel [] "src"))
      = .error "invalid event: at least one task is required" :=
  ⟨rfl, rfl, rfl⟩

end Swarm
